import Mathlib

/-!
Verification development for the `aigis` conversational-agent repository.

The definitions below are a shallow embedding of the conversational turn
orchestrator found in `src/crates/bluesky-bot/src/main.rs` and its library
crate `src/crates/logi`.  Pure Rust functions become Lean functions; the
external collaborators (embedding model, vector store, model gateway, social
network client) are modelled as explicit function parameters or as input data,
matching the interface boundary described in the repository's design notes.
Embedding vectors (`Vec<f32>`) are modelled as `List Int` stand-ins, since the
orchestrator never computes on vector components, only passes them through.
-/

namespace Aigis

/-- Stand-in for an embedding vector `Vec<f32>`; the orchestrator code treats
vectors as opaque payloads, so the component type is irrelevant. -/
abbrev Vect := List Int

/-- Mirror of `logi::vdb::MemoryEntry` (src/crates/logi/src/vdb.rs lines 14-24). -/
structure MemoryEntry where
  id : String
  content : String
  embedding : Vect
  timestamp : Int
  tags : List String
  role : String
  entry_type : String
  conversation_id : String
  deriving Repr, DecidableEq

/-- Chat messages exchanged with the model gateway (the genai `ChatMessage`
values the orchestrator constructs: system, user, assistant and tool-response
messages). -/
inductive Msg where
  | system (content : String)
  | user (content : String)
  | assistant (content : String)
  | toolResp (name : String) (content : String)
  deriving Repr, DecidableEq

/-- Inner walk of Rust's `Vec::dedup_by_key`: an element is dropped exactly
when its key equals the key of the most recently retained element. -/
def dedupByKeyGo {α β : Type} [DecidableEq β] (k : α → β) (last : α) : List α → List α
  | [] => []
  | x :: xs => if k x = k last then dedupByKeyGo k last xs else x :: dedupByKeyGo k x xs

/-- Rust `Vec::dedup_by_key`: removes all but the first of consecutive elements
that map to the same key. -/
def dedupByKey {α β : Type} [DecidableEq β] (k : α → β) : List α → List α
  | [] => []
  | x :: xs => x :: dedupByKeyGo k x xs

/-- Deduplication step of `ingest` (src/crates/bluesky-bot/src/main.rs line 894):
`similar_posts.dedup_by_key(|p| p.id.clone())`. -/
def dedupById (entries : List MemoryEntry) : List MemoryEntry :=
  dedupByKey (fun e => e.id) entries

/-- String accumulation of retrieved entry contents, one per line
(src/crates/bluesky-bot/src/main.rs lines 896-899). -/
def searchChatsStr (entries : List MemoryEntry) : String :=
  entries.foldl (fun s entry => s ++ entry.content ++ "\n") ""

/-- Context assembly step of `ingest` (src/crates/bluesky-bot/src/main.rs lines
893-907): the retrieved entries are deduplicated with `dedup_by_key` on the id,
concatenated one per line, wrapped into a system message and inserted in front
of the thread messages. -/
def assembleContext (similar : List MemoryEntry) (thread : List Msg) : List Msg :=
  Msg.system (searchChatsStr (dedupById similar)) :: thread

/-- Shorthand for a retrieved memory entry with a given id and content; the
remaining fields take the values the store would return for a short-term-memory
entry. -/
def mkEntry (i c : String) : MemoryEntry :=
  { id := i, content := c, embedding := [], timestamp := 0, tags := ["stm"],
    role := "user", entry_type := "bluesky_post", conversation_id := "" }

/-- Rust `str::contains` on character lists: `true` exactly when `needle`
occurs contiguously inside the list scanned. -/
def listContainsSeq (needle : List Char) : List Char → Bool
  | [] => needle.isEmpty
  | c :: rest => needle.isPrefixOf (c :: rest) || listContainsSeq needle rest

/-- Rust `str::contains`: does `hay` contain `needle` as a substring? -/
def strContains (hay needle : String) : Bool :=
  listContainsSeq needle.toList hay.toList

/-- Mirror of `com::atproto::repo::strong_ref::MainData`: a (cid, at-uri) pair. -/
structure StrongRef where
  cid : String
  uri : String
  deriving Repr, DecidableEq

/-- Mirror of `app::bsky::feed::post::ReplyRefData`: root and parent strong refs. -/
structure ReplyRef where
  root : StrongRef
  parent : StrongRef
  deriving Repr, DecidableEq

/-- Rich-text facet feature union (`richtext::facet::MainFeaturesItem` with its
mention, link and tag variants, plus the `Union::Unknown` escape variant). -/
inductive FacetFeature where
  | mention (did : String)
  | link (uri : String)
  | tag (t : String)
  | unknown
  deriving Repr, DecidableEq

/-- Rich-text facet; the orchestrator only reads the feature list
(`facet.data.features`). -/
structure Facet where
  features : List FacetFeature
  deriving Repr, DecidableEq

/-- Image payload inside an images embed; the blob reference is modelled as the
string `get_blob_ref` produces for it. -/
structure EmbImage where
  image : String
  alt : String
  deriving Repr, DecidableEq

/-- Media half of a record-with-media embed
(`embed::record_with_media::MainMediaRefs`, plus unknown variants which the
source maps to an empty media list). -/
inductive MediaRef where
  | images (images : List EmbImage)
  | video (video : String)
  | unknown
  deriving Repr, DecidableEq

/-- Post record embed union (`app::bsky::feed::post::RecordEmbedRefs` plus the
`Union::Unknown` escape variant), with payloads reduced to the fields the
orchestrator reads. -/
inductive RecordEmbed where
  | images (images : List EmbImage)
  | video (video : String)
  | external (uri : String) (title : String) (description : String)
  | record (uri : String)
  | recordWithMedia (uri : String) (media : MediaRef)
  | unknown
  deriving Repr, DecidableEq

/-- Mirror of `app::bsky::feed::post::RecordData`, restricted to the fields the
orchestrator reads (`text`, `reply`, `facets`, `embed`). -/
structure RecordData where
  text : String
  reply : Option ReplyRef
  facets : Option (List Facet)
  embed : Option RecordEmbed
  deriving Repr, DecidableEq

/-- Mirror of `PostListener::is_me` (src/crates/bluesky-bot/src/main.rs lines
315-362).  `selfDid` plays both `self.did` (compared for equality against
mention targets) and `self.did_string` (substring-searched inside URIs); in the
source the two coincide since `did_string = did.to_string()`.  The source's
early returns become a boolean disjunction. -/
def is_me (selfDid : String) (post : RecordData) : Bool :=
  (match post.reply with
   | some reply => strContains reply.parent.uri selfDid
   | none => false) ||
  (match post.facets with
   | some facets =>
     facets.any (fun facet =>
       facet.features.any (fun ftr =>
         match ftr with
         | FacetFeature.mention did => did == selfDid
         | _ => false))
   | none => false) ||
  (match post.embed with
   | some embed =>
     (match embed with
      | RecordEmbed.record uri => strContains uri selfDid
      | RecordEmbed.recordWithMedia uri _ => strContains uri selfDid
      | _ => false)
   | none => false)

/-- Trigger relation (a) of the spec sentence for `isAddressedToAgent`: the post
is a reply whose immediate parent URI contains the agent's identifier. -/
def replyTrigger (selfDid : String) (post : RecordData) : Prop :=
  ∃ reply, post.reply = some reply ∧ selfDid.toList <:+: reply.parent.uri.toList

/-- Trigger relation (b): some rich-text mention facet targets the agent's
identifier. -/
def mentionTrigger (selfDid : String) (post : RecordData) : Prop :=
  ∃ facets, post.facets = some facets ∧
    ∃ facet ∈ facets, FacetFeature.mention selfDid ∈ facet.features

/-- Trigger relation (c): the post quotes a record, alone or bundled with media,
whose URI contains the agent's identifier. -/
def quoteTrigger (selfDid : String) (post : RecordData) : Prop :=
  (∃ uri, post.embed = some (RecordEmbed.record uri) ∧
    selfDid.toList <:+: uri.toList) ∨
  (∃ uri media, post.embed = some (RecordEmbed.recordWithMedia uri media) ∧
    selfDid.toList <:+: uri.toList)

/-- AT-URI construction used by `ingest` (src/crates/bluesky-bot/src/main.rs
lines 383, 391, 396 and 780): `at://{did}/{collection}/{rkey}`. -/
def atUri (did collection rkey : String) : String :=
  "at://" ++ did ++ "/" ++ collection ++ "/" ++ rkey

/-- Mirror of `PostListener::build_reply_ref` (src/crates/bluesky-bot/src/main.rs
lines 372-402): an existing reply reference keeps its root and has its parent
replaced by the triggering post; with no reply reference, root and parent are
both the triggering post. -/
def build_reply_ref (reply : Option ReplyRef) (rcid : String)
    (msgDid collection rkey : String) : ReplyRef :=
  match reply with
  | some r =>
    { r with parent := { cid := rcid, uri := atUri msgDid collection rkey } }
  | none =>
    { parent := { cid := rcid, uri := atUri msgDid collection rkey },
      root := { cid := rcid, uri := atUri msgDid collection rkey } }

/-- Fetched post view (`PostViewData`), restricted to what `extract_post_data`
reads: uri, author display name / handle / did, the indexed timestamp, and the
record payload.  `record = none` models a payload on which
`RecordData::try_from_unknown` fails; the timestamp is a natural number since
only its ordering matters (the source carries an ISO-8601 string whose
lexicographic order is its chronological order). -/
structure PostView where
  uri : String
  authorHandle : String
  authorDisplayName : Option String
  authorDid : String
  indexedAt : Nat
  record : Option RecordData
  deriving Repr, DecidableEq

mutual
/-- Mirror of `ThreadViewPostData`: a post view plus its parent union. -/
inductive ThreadView where
  | node (post : PostView) (parent : ThreadParent)
/-- Parent union of a thread view post, flattening
`Option<Union<ThreadViewPostParentRefs>>`: absent, a further thread view post,
a not-found/blocked ref, or an unknown union variant. -/
inductive ThreadParent where
  | noParent
  | viewPost (t : ThreadView)
  | otherRef
  | unknown
end

mutual
/-- Mirror of `PostListener::collect_parents_recursive`
(src/crates/bluesky-bot/src/main.rs lines 534-560): push the current post,
then continue into the parent while it is a further thread view post. -/
def collectParents : ThreadView → List PostView
  | ThreadView.node post parent => post :: collectParentsP parent

/-- Parent dispatch of `collect_parents_recursive`: traversal continues only
through the `ThreadViewPost` variant and stops at absent, not-found/blocked or
unknown parents. -/
def collectParentsP : ThreadParent → List PostView
  | ThreadParent.viewPost t => collectParents t
  | ThreadParent.noParent => []
  | ThreadParent.otherRef => []
  | ThreadParent.unknown => []
end

/-- Mirror of the output `PostEmbedImage` struct (main.rs lines 1134-1138). -/
structure PostEmbedImage where
  image : String
  alt : Option String
  deriving Repr, DecidableEq

/-- Mirror of `PostEmbedImages` (main.rs lines 1130-1133). -/
structure PostEmbedImages where
  images : List PostEmbedImage
  deriving Repr, DecidableEq

/-- Mirror of `PostEmbedExternal` (main.rs lines 1140-1145). -/
structure PostEmbedExternal where
  uri : String
  title : Option String
  description : Option String
  deriving Repr, DecidableEq

/-- Mirror of `PostEmbedVideo` (main.rs lines 1165-1169). -/
structure PostEmbedVideo where
  video : String
  duration : Option Nat
  deriving Repr, DecidableEq

/-- Mirror of `PostEmbedRecord` (main.rs lines 1147-1151). -/
structure PostEmbedRecord where
  record : String
  title : Option String
  deriving Repr, DecidableEq

/-- Mirror of `PostEmbedMedia` (main.rs lines 1159-1163). -/
inductive PostEmbedMedia where
  | images (i : PostEmbedImages)
  | video (v : PostEmbedVideo)
  deriving Repr, DecidableEq

/-- Mirror of `PostEmbedRecordWithMedia` (main.rs lines 1153-1157). -/
structure PostEmbedRecordWithMedia where
  record : PostEmbedRecord
  media : List PostEmbedMedia
  deriving Repr, DecidableEq

/-- Mirror of the output `PostEmbed` enum (main.rs lines 1121-1128). -/
inductive PostEmbed where
  | images (i : PostEmbedImages)
  | external (e : PostEmbedExternal)
  | video (v : PostEmbedVideo)
  | record (r : PostEmbedRecord)
  | recordWithMedia (rm : PostEmbedRecordWithMedia)
  deriving Repr, DecidableEq

/-- Mirror of `PostListener::extract_post_embed` (main.rs lines 451-531):
each embed union variant of the record maps to the serializable `PostEmbed`
shape; an unknown union variant maps to no embed. -/
def extract_post_embed (rd : RecordData) : Option PostEmbed :=
  match rd.embed with
  | some e =>
    match e with
    | RecordEmbed.images imgs =>
      some (PostEmbed.images
        { images := imgs.map (fun img => { image := img.image, alt := some img.alt }) })
    | RecordEmbed.video v =>
      some (PostEmbed.video { video := v, duration := none })
    | RecordEmbed.external uri title description =>
      some (PostEmbed.external
        { uri := uri, title := some title, description := some description })
    | RecordEmbed.record uri =>
      some (PostEmbed.record { record := uri, title := none })
    | RecordEmbed.recordWithMedia uri media =>
      some (PostEmbed.recordWithMedia
        { record := { record := uri, title := none },
          media :=
            match media with
            | MediaRef.images imgs =>
              [PostEmbedMedia.images
                { images := imgs.map (fun img => { image := img.image, alt := some img.alt }) }]
            | MediaRef.video v =>
              [PostEmbedMedia.video { video := v, duration := none }]
            | MediaRef.unknown => [] })
    | RecordEmbed.unknown => none
  | none => none

/-- Mirror of the serializable `PostData` struct (main.rs lines 1105-1119),
keeping the `Nat` model of the indexed timestamp. -/
structure PostData where
  author : String
  text : String
  uri : String
  author_did : String
  indexed_at : Option Nat
  embed : Option PostEmbed
  deriving Repr, DecidableEq

/-- Author label of `extract_post_data` (main.rs lines 428-433):
`display_name (handle)` when a display name is present, otherwise the bare
handle. -/
def authorLabel (p : PostView) : String :=
  match p.authorDisplayName with
  | some e => e ++ " (" ++ p.authorHandle ++ ")"
  | none => p.authorHandle

/-- Mirror of `PostListener::extract_post_data` (main.rs lines 424-448);
`none` models the `Err` returned when the post's record payload cannot be
decoded into `RecordData`. -/
def extract_post_data (post : PostView) : Option PostData :=
  match post.record with
  | some rd =>
    some { author := authorLabel post, text := rd.text, uri := post.uri,
           author_did := post.authorDid, indexed_at := some post.indexedAt,
           embed := extract_post_embed rd }
  | none => none

/-- Result union of the thread fetch (`get_post_thread::OutputThreadRefs` plus
`Union::Unknown`): a thread view post, another ref (not found / blocked), or an
unknown union variant. -/
inductive FetchedThread where
  | viewPost (t : ThreadView)
  | otherRef
  | unknown

/-- Mirror of `PostListener::atp_thread_to_json` (main.rs lines 566-609) from
the fetched thread union on: collect the child-to-parent chain, reverse it to
chronological order, and convert each post with `extract_post_data`, keeping
only the successfully decoded ones (`filter_map(.. .ok())`). -/
def atp_thread_to_json (thread : FetchedThread) : Except String (List PostData) :=
  match thread with
  | FetchedThread.viewPost t =>
    Except.ok (((collectParents t).reverse).filterMap extract_post_data)
  | FetchedThread.otherRef => Except.error ("Unexpected thread type")
  | FetchedThread.unknown => Except.error ("Unexpected ref type")

/-- Claimed output ordering: the indexed timestamps of the reconstructed posts
are non-decreasing, oldest first. -/
def nondecreasingTimestamps (l : List PostData) : Prop :=
  List.Chain' (fun a b => a.indexed_at.getD 0 ≤ b.indexed_at.getD 0) l

/-- Well-formedness of a fetched parent chain: along the child-to-parent chain
every parent is at most as new as its child. -/
def parentsOlder (t : ThreadView) : Prop :=
  List.Chain' (fun child parent => parent.indexedAt ≤ child.indexedAt)
    (collectParents t)

/-- Thread view whose parent is newer than its child; a real reply chain never
looks like this, but the thread-fetch interface does not rule it out. -/
def cexThread : ThreadView :=
  ThreadView.node
    (PostView.mk ("at://p1") ("child") none ("did:c") 0
      (some (RecordData.mk ("newer") none none none)))
    (ThreadParent.viewPost
      (ThreadView.node
        (PostView.mk ("at://p0") ("parent") none ("did:p") 5
          (some (RecordData.mk ("older") none none none)))
        ThreadParent.noParent))

/-- Thread view with a parent older than its child, used to instantiate the
corrected chronological-ordering theorem. -/
def wThread : ThreadView :=
  ThreadView.node
    (PostView.mk ("at://p1") ("c") none ("did:c") 5
      (some (RecordData.mk ("t") none none none)))
    (ThreadParent.viewPost
      (ThreadView.node
        (PostView.mk ("at://p0") ("p") none ("did:p") 2
          (some (RecordData.mk ("t") none none none)))
        ThreadParent.noParent))

/-- Parsed tool call (`logi::tools::ToolCall`, src/crates/logi/src/tools/mod.rs
lines 18-23).  The JSON argument value (`serde_json::Value`) is a type
parameter `V`: the orchestrator only compares argument values for equality and
renders them to text. -/
structure ToolCall (V : Type) where
  tool_type : String
  tool_name : String
  tool_args : V
  deriving Repr, DecidableEq

/-- Registered capability (`logi::tools::AiTool`): a name, a description, and
the execution behaviour of the external tool as a function returning a result
value or an error string. -/
structure AiTool (V : Type) where
  name : String
  description : String
  execute : V → Except String V

/-- Loop body of `logi::tools::execute_tool_calls` (mod.rs lines 66-76) for a
single call: look up the tool by name, then record the success value, the
`Error: ...` string of a failed execution, or `Tool not found` for an
unregistered name. -/
def executeOneCall {V : Type} (tools : List (AiTool V)) (call : ToolCall V) :
    String × Except String V :=
  match tools.find? (fun t => t.name == call.tool_name) with
  | some tool =>
    match tool.execute call.tool_args with
    | Except.ok res => (call.tool_name, Except.ok res)
    | Except.error e => (call.tool_name, Except.error ("Error: " ++ e))
  | none => (call.tool_name, Except.error ("Tool not found"))

/-- Mirror of `logi::tools::execute_tool_calls` (mod.rs lines 60-78): every
call of the batch is executed in order; each result is recorded independently,
never aborting the batch. -/
def execute_tool_calls {V : Type} (tool_calls : List (ToolCall V))
    (tools : List (AiTool V)) : List (String × Except String V) :=
  tool_calls.map (executeOneCall tools)

/-- One match of the tool-call directive regex of `parse_tool_calls`: the
`type`, `name` and raw JSON `args` capture groups.  The regex engine is an
external library; its capture stream over the model output is the input
here. -/
structure Capture where
  ctype : String
  cname : String
  cargs : String
  deriving Repr, DecidableEq

/-- Capture loop of `logi::tools::parse_tool_calls` (mod.rs lines 37-54): for
each capture the raw argument text is JSON-parsed (`jsonParse` models
`serde_json::from_str`); a successfully parsed call is pushed, a failing one
is skipped without error. -/
def parseToolCallsGo {V : Type} (jsonParse : String → Option V) :
    List Capture → List (ToolCall V) → List (ToolCall V)
  | [], calls => calls
  | cap :: rest, calls =>
    match jsonParse cap.cargs with
    | some v =>
      parseToolCallsGo jsonParse rest (calls ++ [ToolCall.mk cap.ctype cap.cname v])
    | none => parseToolCallsGo jsonParse rest calls

/-- Mirror of `logi::tools::parse_tool_calls` (mod.rs lines 31-56), over the
capture stream produced by the directive regex. -/
def parse_tool_calls {V : Type} (jsonParse : String → Option V)
    (captures : List Capture) : List (ToolCall V) :=
  parseToolCallsGo jsonParse captures []

/-- Conversion of one tool result into the conversation message appended by
`ingest` (main.rs lines 952-969): the rendered value on success, an
`Error: ...` string on failure. -/
def toolResultMsg {V : Type} (render : V → String) (r : String × Except String V) :
    Msg :=
  match r.2 with
  | Except.ok v => Msg.toolResp r.1 (render v)
  | Except.error e => Msg.toolResp r.1 ("Error: " ++ e)

/-- Outcome of the tool-augmented generation loop: final model output, number
of follow-up gateway calls made, and the conversation messages accumulated. -/
structure LoopOut where
  final : String
  followupCalls : Nat
  messages : List Msg
  deriving Repr, DecidableEq

/-- Repetition guard of the loop (main.rs lines 927-941), applied to the first
parsed tool call of the batch only: `none` models the `break` taken when the
previously checked (name, arguments) pair recurs with the repeat counter
already at the bound `TOOL_CALL_TIMES = 3` (main.rs line 65); otherwise the
updated counter is returned (incremented on a repeat, reset to 1 on a new pair
or when no pair was checked before). -/
def repGuard {V : Type} [DecidableEq V] (lastCall : Option (String × V))
    (times : Nat) (first : ToolCall V) : Option Nat :=
  match lastCall with
  | some (ln, la) =>
    if ln = first.tool_name ∧ la = first.tool_args then
      if 3 ≤ times then none else some (times + 1)
    else some 1
  | none => some 1

/-- Mirror of the tool-call loop of `ingest` (main.rs lines 920-981).  `parse`
is `parse_tool_calls` applied to a model output, `render` is
`serde_json::Value::to_string`, and the model gateway is the stream
`followups` of outputs it would return for successive follow-up requests
(`none` models a follow-up the stream cannot answer, which never occurs when
the stream is long enough).  `respAccum`, `lastCall`, `times` mirror
`response_accum`, `last_tool_call` and `last_tool_call_times`; `calls` counts
the follow-up gateway requests already made. -/
def toolLoop {V : Type} [DecidableEq V] (parse : String → List (ToolCall V))
    (tools : List (AiTool V)) (render : V → String) (followups : List String)
    (respAccum : String) (lastCall : Option (String × V)) (times : Nat)
    (msgs : List Msg) (calls : Nat) : Option LoopOut :=
  match parse respAccum with
  | [] => some (LoopOut.mk respAccum calls msgs)
  | first :: restCalls =>
    match repGuard lastCall times first with
    | none => some (LoopOut.mk respAccum calls msgs)
    | some newTimes =>
      match followups with
      | [] => none
      | f :: rest =>
        toolLoop parse tools render rest f
          (some (first.tool_name, first.tool_args)) newTimes
          (msgs ++ [Msg.assistant respAccum] ++
            (execute_tool_calls (first :: restCalls) tools).map
              (toolResultMsg render))
          (calls + 1)
termination_by followups.length
decreasing_by simp

/-- Mirror of the `ChatLog` struct (main.rs lines 1171-1176): the serialized
exchange of triggering message, final reply and author id. -/
structure ChatLog where
  post : String
  response : String
  poster_did : String
  deriving Repr, DecidableEq

/-- Collaborator operations performed by the memory-writer segment: the
batches sent to the embedder, the `memtries` list assembled, and the entries
handed to the vector store's `put`/`put_batch` operations. -/
structure MemoryWriteTrace where
  embedBatches : List (List String)
  memtries : List MemoryEntry
  putCalls : List MemoryEntry
  deriving Repr, DecidableEq

/-- Mirror of the memory-writer tail of `ingest` (main.rs lines 1031-1079),
run after the reply has been posted.  `serialize` models
`serde_json::to_string` on the `ChatLog`, `embed` the embedding collaborator,
`uuid5` the `Uuid::new_v5(NAMESPACE_DNS, bytes)` derivation, `now` the current
unix timestamp; `lmContent` is the text of the thread's last message, `resp`
the trimmed final reply and `rootUri` the root URI of the posted reply
reference.  The trace records every collaborator interaction: the source
embeds the serialized exchange once, zips vectors and log, assembles the
`memtries` entries — and then ends the block, with no call to
`MemoryStore::put` or `put_batch`, so `putCalls` is empty. -/
def memoryWriterPhase (serialize : ChatLog → String)
    (embed : List String → List Vect) (uuid5 : String → String) (now : Int)
    (lmContent resp posterDid rootUri : String) : MemoryWriteTrace :=
  let chatLog := serialize (ChatLog.mk lmContent resp posterDid)
  let vector := embed [chatLog]
  let zipped := vector.zip [chatLog]
  let memtries := zipped.map (fun vc =>
    MemoryEntry.mk (uuid5 vc.2) vc.2 vc.1 now ["stm"] ("user") ("bluesky_post")
      (uuid5 rootUri))
  MemoryWriteTrace.mk [[chatLog]] memtries []

/-- Concrete run of the memory-writer phase: simple explicit collaborators and
a concrete finished exchange. -/
def c2Trace : MemoryWriteTrace :=
  memoryWriterPhase
    (fun cl => cl.post ++ "|" ++ cl.response ++ "|" ++ cl.poster_did)
    (fun batch => batch.map (fun _ => [0])) (fun s => "uuid:" ++ s) 100
    ("alice: hi") ("hello") ("did:alice") ("at://root")

/-- Fuel-indexed leftmost splitting of Rust `str::split` with a (nonempty)
string pattern, over character lists: when the separator is a prefix of the
remaining input the accumulated piece is emitted and the separator consumed,
otherwise one character moves into the accumulator.  Every step consumes at
least one input character, so any fuel of at least the input length computes
the split; the fuel-exhausted fallback agrees with the empty-input case. -/
def splitOnFuel (sep : List Char) : Nat → List Char → List Char → List (List Char)
  | 0, s, acc => [acc.reverse ++ s]
  | _ + 1, [], acc => [acc.reverse]
  | fuel + 1, c :: rest, acc =>
    if sep ≠ [] ∧ sep.isPrefixOf (c :: rest) then
      acc.reverse :: splitOnFuel sep fuel ((c :: rest).drop sep.length) []
    else
      splitOnFuel sep fuel rest (c :: acc)

/-- Rust `str::split` with a nonempty string pattern, collected into the list
of pieces. -/
def splitOnChars (sep s : List Char) : List (List Char) :=
  splitOnFuel sep s.length s []

/-- Rust `str::trim` on character lists: remove leading and trailing
whitespace. -/
def trimChars (s : List Char) : List Char :=
  ((s.dropWhile Char.isWhitespace).reverse.dropWhile Char.isWhitespace).reverse

/-- The reasoning delimiter of the source (main.rs line 987). -/
def thinkDelim : List Char := "</think>".toList

/-- Post-processing of the final model output (main.rs lines 985-992):
`final_resp.split("</think>")` collected, its last element taken, then
trimmed.  `split` always yields at least one piece, so the source's `ok_or`
error branch is dead and the fallback default here is never used. -/
def stripThink (s : List Char) : List Char :=
  trimChars ((splitOnChars thinkDelim s).getLastD [])

/-- String-level wrapper of `stripThink`. -/
def stripThinkStr (s : String) : String :=
  List.asString (stripThink s.toList)

/-- A pattern with no nontrivial border: no proper nonempty prefix is also a
suffix.  Leftmost non-overlapping matching then finds every occurrence of the
pattern; the reasoning delimiter has this property. -/
def Unbordered (sep : List Char) : Prop :=
  ∀ k, k < sep.length → 0 < k → sep.take k ≠ sep.drop (sep.length - k)

/-- Two-post thread whose newest post carries an undecodable record payload,
used to instantiate the decode-failure omission theorem. -/
def c9Thread : ThreadView :=
  ThreadView.node
    (PostView.mk ("at://q1") ("h1") none ("did:1") 7 none)
    (ThreadParent.viewPost
      (ThreadView.node
        (PostView.mk ("at://q0") ("h0") none ("did:0") 3
          (some (RecordData.mk ("ok") none none none)))
        ThreadParent.noParent))

theorem dedupByKeyGo_congr {α β : Type} [DecidableEq β] (k : α → β) (a b : α)
    (h : k a = k b) (xs : List α) : dedupByKeyGo k a xs = dedupByKeyGo k b xs := by
  induction xs with
  | nil => rfl
  | cons y ys ih =>
    simp only [dedupByKeyGo, h, ih]

theorem dedupByKeyGo_zip {α β : Type} [DecidableEq β] (k : α → β) (last : α)
    (xs : List α) :
    dedupByKeyGo k last xs
      = (xs.zip (last :: xs)).filterMap
          (fun p => if k p.1 = k p.2 then none else some p.1) := by
  induction xs generalizing last with
  | nil => rfl
  | cons y ys ih =>
    by_cases h : k y = k last
    · simp only [dedupByKeyGo, if_pos h, List.zip_cons_cons, List.filterMap_cons, h,
        if_pos rfl]
      rw [dedupByKeyGo_congr k last y h.symm]
      exact ih y
    · simp only [dedupByKeyGo, if_neg h, List.zip_cons_cons, List.filterMap_cons, h,
        if_neg h]
      exact congrArg (y :: ·) (ih y)

/-- C1, counterexample: on retrieved entries with identifiers `[a, b, a, c]` the
assembler does not remove the repeated identifier `a` (Rust `dedup_by_key` only
collapses consecutive duplicates), so the leading system message carries the
content of `a` twice, contradicting the claimed output `[a, b, c]`. -/
theorem c1_counterexample :
    (dedupById [mkEntry ("a") ("A"), mkEntry ("b") ("B"), mkEntry ("a") ("A"),
        mkEntry ("c") ("C")]).map (fun e => e.id) = ["a", "b", "a", "c"] ∧
    ¬ ((dedupById [mkEntry ("a") ("A"), mkEntry ("b") ("B"), mkEntry ("a") ("A"),
        mkEntry ("c") ("C")]).map (fun e => e.id) = ["a", "b", "c"]) ∧
    assembleContext [mkEntry ("a") ("A"), mkEntry ("b") ("B"), mkEntry ("a") ("A"),
        mkEntry ("c") ("C")] [] = [Msg.system ("A\nB\nA\nC\n")] := by
  refine ⟨rfl, ?_, rfl⟩
  decide

/-- C1 (amended): the context assembler removes exactly those retrieved entries
whose identifier equals the identifier of the immediately preceding entry of
the list (consecutive deduplication, first of each run kept, order preserved);
entries whose identifier reappeared earlier but not adjacently are kept, so
`[a, b, a, c]` is returned unchanged while `[a, a, b, c]` yields `[a, b, c]`. -/
theorem c1_dedup_consecutive (x : MemoryEntry) (xs : List MemoryEntry) :
    dedupById (x :: xs)
      = x :: (xs.zip (x :: xs)).filterMap
          (fun p => if p.1.id = p.2.id then none else some p.1) := by
  simp only [dedupById, dedupByKey]
  exact congrArg (x :: ·) (dedupByKeyGo_zip (fun e => e.id) x xs)

/-- C1 witness: the amended characterization instantiated at a concrete list
with a consecutive duplicate identifier. -/
theorem c1_witness :
    dedupById (mkEntry ("a") ("A")
        :: [mkEntry ("a") ("A2"), mkEntry ("b") ("B")])
      = mkEntry ("a") ("A")
        :: ([mkEntry ("a") ("A2"), mkEntry ("b") ("B")].zip
            (mkEntry ("a") ("A")
              :: [mkEntry ("a") ("A2"), mkEntry ("b") ("B")])).filterMap
            (fun p => if p.1.id = p.2.id then none else some p.1) :=
  c1_dedup_consecutive (mkEntry ("a") ("A"))
    [mkEntry ("a") ("A2"), mkEntry ("b") ("B")]

theorem listContainsSeq_iff (needle hay : List Char) :
    listContainsSeq needle hay = true ↔ needle <:+: hay := by
  induction hay with
  | nil =>
    simp only [listContainsSeq, List.isEmpty_iff, List.infix_nil]
  | cons c rest ih =>
    simp only [listContainsSeq, Bool.or_eq_true, ih, List.infix_cons_iff,
      List.isPrefixOf_iff_prefix]

theorem strContains_iff (hay needle : String) :
    strContains hay needle = true ↔ needle.toList <:+: hay.toList :=
  listContainsSeq_iff needle.toList hay.toList

theorem featureMatch_iff (selfDid : String) (ftr : FacetFeature) :
    (match ftr with
     | FacetFeature.mention did => did == selfDid
     | _ => false) = true ↔ ftr = FacetFeature.mention selfDid := by
  cases ftr <;> simp

/-- C5: `is_me` returns true exactly when one of the three trigger relations
holds — parent URI of the reply reference contains the agent's identifier, a
mention facet targets the agent, or the quoted record's URI (alone or with
media) contains the agent's identifier — and false for every other post,
including ones with unknown facet or embed variants; the function is total, so
no input raises an error. -/
theorem c5_is_me_iff (selfDid : String) (post : RecordData) :
    is_me selfDid post = true ↔
      replyTrigger selfDid post ∨ mentionTrigger selfDid post ∨
        quoteTrigger selfDid post := by
  obtain ⟨text, reply, facets, embed⟩ := post
  simp only [is_me, replyTrigger, mentionTrigger, quoteTrigger, Bool.or_eq_true]
  rcases reply with _ | r <;> rcases facets with _ | fs <;>
    rcases embed with _ | e <;>
    simp_all [List.any_eq_true, featureMatch_iff, strContains_iff] <;>
    cases e <;> simp_all [strContains_iff, or_assoc]

/-- C5 witness: a post that is a reply to the agent is recognised, at a
concrete input. -/
theorem c5_witness :
    is_me ("did:plc:me") (RecordData.mk ("hi")
      (some (ReplyRef.mk (StrongRef.mk ("c0") ("at://u0"))
        (StrongRef.mk ("c1") ("at://did:plc:me/app.bsky.feed.post/k"))))
      none none) = true := by
  exact (c5_is_me_iff ("did:plc:me") _).mpr
    (Or.inl ⟨_, rfl, by decide⟩)

/-- C10: `build_reply_ref` keeps the root of an existing reply reference and
replaces only its parent with the triggering post's CID and at-URI; with no
reply reference both root and parent become the triggering post, so the root
URI (the one later hashed into the conversation id) equals the triggering
post's own at-URI. -/
theorem c10_build_reply_ref (r : ReplyRef) (rcid msgDid collection rkey : String) :
    (build_reply_ref (some r) rcid msgDid collection rkey).root = r.root ∧
    (build_reply_ref (some r) rcid msgDid collection rkey).parent
      = { cid := rcid, uri := atUri msgDid collection rkey } ∧
    build_reply_ref none rcid msgDid collection rkey
      = { root := { cid := rcid, uri := atUri msgDid collection rkey },
          parent := { cid := rcid, uri := atUri msgDid collection rkey } } ∧
    (build_reply_ref none rcid msgDid collection rkey).root.uri
      = atUri msgDid collection rkey := by
  refine ⟨rfl, rfl, rfl, rfl⟩

theorem extract_post_data_timestamp (p : PostView) (d : PostData)
    (h : extract_post_data p = some d) : d.indexed_at = some p.indexedAt := by
  unfold extract_post_data at h
  cases hr : p.record with
  | none => rw [hr] at h; exact absurd h (by simp)
  | some rd =>
    rw [hr] at h
    simp only [Option.some_inj] at h
    rw [← h]

/-- C4, counterexample: the reconstruction performs no sorting — it only
reverses the collected child-to-parent chain — so a fetched thread view whose
parent carries a newer indexed timestamp than its child yields an output whose
timestamps decrease, contradicting the unconditional ordering claim. -/
theorem c4_counterexample :
    ∃ l, atp_thread_to_json (FetchedThread.viewPost cexThread) = Except.ok l ∧
      (l.map (fun d => d.indexed_at) = [some 5, some 0]) ∧
      ¬ nondecreasingTimestamps l := by
  refine ⟨[PostData.mk ("parent") ("older") ("at://p0") ("did:p") (some 5) none,
      PostData.mk ("child") ("newer") ("at://p1") ("did:c") (some 0) none],
    rfl, rfl, ?_⟩
  unfold nondecreasingTimestamps
  simp [List.chain'_cons]

/-- C4 (amended): whenever the fetched parent chain is well formed — along the
child-to-parent chain every parent is at most as new as its child, as in a real
reply chain — the reconstruction output has non-decreasing indexed timestamps,
oldest first, regardless of the child-to-parent direction in which the chain
was collected. -/
theorem c4_chronological (t : ThreadView) (l : List PostData)
    (hord : parentsOlder t)
    (h : atp_thread_to_json (FetchedThread.viewPost t) = Except.ok l) :
    nondecreasingTimestamps l := by
  unfold atp_thread_to_json at h
  simp only [Except.ok.injEq] at h
  subst h
  unfold parentsOlder at hord
  unfold nondecreasingTimestamps
  have hrev : List.Chain' (fun a b => a.indexedAt ≤ b.indexedAt)
      (collectParents t).reverse := by
    rw [List.chain'_reverse]
    exact hord
  haveI : IsTrans PostView (fun a b => a.indexedAt ≤ b.indexedAt) :=
    ⟨fun _ _ _ hab hbc => le_trans hab hbc⟩
  have hpw : List.Pairwise (fun a b => a.indexedAt ≤ b.indexedAt)
      (collectParents t).reverse := List.chain'_iff_pairwise.mp hrev
  have hpw2 : List.Pairwise
      (fun a b => ∀ c ∈ extract_post_data a, ∀ d ∈ extract_post_data b,
        c.indexed_at.getD 0 ≤ d.indexed_at.getD 0)
      (collectParents t).reverse := by
    refine hpw.imp_of_mem ?_
    intro a b _ _ hab c hc d hd
    rw [extract_post_data_timestamp a c hc, extract_post_data_timestamp b d hd]
    exact hab
  exact (List.pairwise_filterMap.mpr hpw2).chain'

/-- C4 witness: on a concrete two-post thread whose parent is older, the
corrected theorem yields the chronological (oldest-first) output. -/
theorem c4_witness :
    nondecreasingTimestamps
      [PostData.mk ("p") ("t") ("at://p0") ("did:p") (some 2) none,
       PostData.mk ("c") ("t") ("at://p1") ("did:c") (some 5) none] :=
  c4_chronological wThread _
    (by unfold parentsOlder
        show List.Chain' (fun child parent => parent.indexedAt ≤ child.indexedAt)
          [PostView.mk ("at://p1") ("c") none ("did:c") 5
            (some (RecordData.mk ("t") none none none)),
           PostView.mk ("at://p0") ("p") none ("did:p") 2
            (some (RecordData.mk ("t") none none none))]
        simp [List.chain'_cons])
    rfl

/-- C9: thread reconstruction never fails because an individual collected
post's record cannot be decoded: for every fetched thread view the conversion
returns `Ok`, its length is the number of decodable posts of the collected
chain (so it may be shorter than the chain), and each returned entry comes
from a successfully decoded chain post. -/
theorem c9_decode_failures_omitted (t : ThreadView) :
    ∃ l, atp_thread_to_json (FetchedThread.viewPost t) = Except.ok l ∧
      l.length = ((collectParents t).filter (fun p => p.record.isSome)).length ∧
      ∀ d ∈ l, ∃ p ∈ collectParents t, extract_post_data p = some d := by
  refine ⟨_, rfl, ?_, ?_⟩
  · have hlen : ∀ (m : List PostView),
        (m.filterMap extract_post_data).length
          = (m.filter (fun p => p.record.isSome)).length := by
      intro m
      induction m with
      | nil => rfl
      | cons x xs ih =>
        cases hx : x.record with
        | none =>
          simp [List.filterMap_cons, List.filter_cons, extract_post_data, hx, ih]
        | some rd =>
          simp [List.filterMap_cons, List.filter_cons, extract_post_data, hx, ih]
    rw [hlen, List.filter_reverse, List.length_reverse]
  · intro d hd
    obtain ⟨p, hp, hpd⟩ := List.mem_filterMap.mp hd
    exact ⟨p, List.mem_reverse.mp hp, hpd⟩

/-- C9 witness: a concrete two-post chain with one undecodable record; the
conversion succeeds and keeps exactly the decodable post. -/
theorem c9_witness :
    ∃ l, atp_thread_to_json (FetchedThread.viewPost c9Thread) = Except.ok l ∧
      l.length
        = ((collectParents c9Thread).filter (fun p => p.record.isSome)).length ∧
      ∀ d ∈ l, ∃ p ∈ collectParents c9Thread, extract_post_data p = some d :=
  c9_decode_failures_omitted c9Thread

/-- C10 witness: the reply-reference construction instantiated at a concrete
existing reference and concrete triggering post coordinates. -/
theorem c10_witness :
    (build_reply_ref
        (some (ReplyRef.mk (StrongRef.mk ("rc") ("at://rooturi"))
          (StrongRef.mk ("pc") ("at://parenturi"))))
        ("cid1") ("did:x") ("app.bsky.feed.post") ("rk")).root
      = (ReplyRef.mk (StrongRef.mk ("rc") ("at://rooturi"))
          (StrongRef.mk ("pc") ("at://parenturi"))).root ∧
    (build_reply_ref
        (some (ReplyRef.mk (StrongRef.mk ("rc") ("at://rooturi"))
          (StrongRef.mk ("pc") ("at://parenturi"))))
        ("cid1") ("did:x") ("app.bsky.feed.post") ("rk")).parent
      = StrongRef.mk ("cid1") (atUri ("did:x") ("app.bsky.feed.post") ("rk")) ∧
    build_reply_ref none ("cid1") ("did:x") ("app.bsky.feed.post") ("rk")
      = ReplyRef.mk
          (StrongRef.mk ("cid1") (atUri ("did:x") ("app.bsky.feed.post") ("rk")))
          (StrongRef.mk ("cid1") (atUri ("did:x") ("app.bsky.feed.post") ("rk"))) ∧
    (build_reply_ref none ("cid1") ("did:x") ("app.bsky.feed.post") ("rk")).root.uri
      = atUri ("did:x") ("app.bsky.feed.post") ("rk") :=
  c10_build_reply_ref
    (ReplyRef.mk (StrongRef.mk ("rc") ("at://rooturi"))
      (StrongRef.mk ("pc") ("at://parenturi")))
    ("cid1") ("did:x") ("app.bsky.feed.post") ("rk")

theorem toolLoop_done {V : Type} [DecidableEq V]
    {parse : String → List (ToolCall V)} {tools : List (AiTool V)}
    {render : V → String} {followups : List String} {r : String}
    {lastCall : Option (String × V)} {times : Nat} {msgs : List Msg}
    {calls : Nat} (h : parse r = []) :
    toolLoop parse tools render followups r lastCall times msgs calls
      = some (LoopOut.mk r calls msgs) := by
  rw [toolLoop]
  simp only [h]

theorem toolLoop_break {V : Type} [DecidableEq V]
    {parse : String → List (ToolCall V)} {tools : List (AiTool V)}
    {render : V → String} {followups : List String} {r : String}
    {first : ToolCall V} {tl : List (ToolCall V)} {times : Nat}
    {msgs : List Msg} {calls : Nat}
    (h : parse r = first :: tl) (ht : 3 ≤ times) :
    toolLoop parse tools render followups r
        (some (first.tool_name, first.tool_args)) times msgs calls
      = some (LoopOut.mk r calls msgs) := by
  rw [toolLoop]
  simp only [h]
  simp [repGuard, ht]

theorem toolLoop_step_fresh {V : Type} [DecidableEq V]
    {parse : String → List (ToolCall V)} {tools : List (AiTool V)}
    {render : V → String} {f : String} {rest : List String} {r : String}
    {first : ToolCall V} {tl : List (ToolCall V)} {msgs : List Msg}
    {calls : Nat} (h : parse r = first :: tl) :
    toolLoop parse tools render (f :: rest) r none 0 msgs calls
      = toolLoop parse tools render rest f
          (some (first.tool_name, first.tool_args)) 1
          (msgs ++ [Msg.assistant r] ++
            (execute_tool_calls (first :: tl) tools).map (toolResultMsg render))
          (calls + 1) := by
  rw [toolLoop]
  simp only [h]
  simp [repGuard]

theorem toolLoop_step_repeat {V : Type} [DecidableEq V]
    {parse : String → List (ToolCall V)} {tools : List (AiTool V)}
    {render : V → String} {f : String} {rest : List String} {r : String}
    {first : ToolCall V} {tl : List (ToolCall V)} {times : Nat}
    {msgs : List Msg} {calls : Nat}
    (h : parse r = first :: tl) (ht : ¬ 3 ≤ times) :
    toolLoop parse tools render (f :: rest) r
        (some (first.tool_name, first.tool_args)) times msgs calls
      = toolLoop parse tools render rest f
          (some (first.tool_name, first.tool_args)) (times + 1)
          (msgs ++ [Msg.assistant r] ++
            (execute_tool_calls (first :: tl) tools).map (toolResultMsg render))
          (calls + 1) := by
  rw [toolLoop]
  simp only [h]
  simp [repGuard, ht]

/-- C3: with four consecutive model outputs whose first parsed tool call is
the same (name, arguments) pair and threshold 3, the loop aborts while
examining the fourth output without issuing a further gateway request: exactly
the three earlier follow-ups were made, and the final answer is the output
already received from the third follow-up round. -/
theorem c3_repetition_abort {V : Type} [DecidableEq V]
    (parse : String → List (ToolCall V)) (tools : List (AiTool V))
    (render : V → String) (n : String) (a : V) (o1 o2 o3 o4 : String)
    (rest : List String) (msgs : List Msg)
    (h1 : ∃ ty tl, parse o1 = ToolCall.mk ty n a :: tl)
    (h2 : ∃ ty tl, parse o2 = ToolCall.mk ty n a :: tl)
    (h3 : ∃ ty tl, parse o3 = ToolCall.mk ty n a :: tl)
    (h4 : ∃ ty tl, parse o4 = ToolCall.mk ty n a :: tl) :
    (toolLoop parse tools render (o2 :: o3 :: o4 :: rest) o1 none 0 msgs 0).map
        (fun out => (out.final, out.followupCalls))
      = some ((o4), 3) := by
  obtain ⟨u1, l1, h1⟩ := h1
  obtain ⟨u2, l2, h2⟩ := h2
  obtain ⟨u3, l3, h3⟩ := h3
  obtain ⟨u4, l4, h4⟩ := h4
  rw [toolLoop_step_fresh h1]
  rw [toolLoop_step_repeat h2 (by omega)]
  rw [toolLoop_step_repeat h3 (by omega)]
  rw [toolLoop_break h4 (by omega)]
  rfl

/-- C3 witness: a concrete parse function returning the same (name, arguments)
call for every output; the loop stops at the fourth output after three
follow-up calls. -/
theorem c3_witness :
    (toolLoop (fun _ => [ToolCall.mk ("function") ("calc") (0 : Nat)])
        ([] : List (AiTool Nat)) (fun v => toString v)
        ["r2", "r3", "r4"] ("r1") none 0 [] 0).map
        (fun out => (out.final, out.followupCalls))
      = some (("r4"), 3) :=
  c3_repetition_abort (fun _ => [ToolCall.mk ("function") ("calc") (0 : Nat)])
    [] (fun v => toString v) ("calc") 0 ("r1") ("r2") ("r3") ("r4") [] []
    ⟨("function"), [], rfl⟩ ⟨("function"), [], rfl⟩ ⟨("function"), [], rfl⟩
    ⟨("function"), [], rfl⟩

theorem executeOneCall_fst {V : Type} (tools : List (AiTool V))
    (c : ToolCall V) : (executeOneCall tools c).1 = c.tool_name := by
  unfold executeOneCall
  split
  · split <;> rfl
  · rfl

/-- C7: `execute_tool_calls` returns exactly one (name, result) entry per call
of the batch, in order; a failing execution records an error string for its
call only, an unregistered name records a `Tool not found` error, and in the
generation loop that error is fed back into the conversation as an error
message after which the loop continues with a follow-up request. -/
theorem c7_execute_all {V : Type} [DecidableEq V]
    (tools : List (AiTool V)) (render : V → String)
    (parse : String → List (ToolCall V)) (k : ToolCall V) (o1 o2 : String)
    (rest : List String)
    (hp1 : parse o1 = [k]) (hp2 : parse o2 = [])
    (hbad : tools.find? (fun t => t.name == k.tool_name) = none) :
    (∀ calls : List (ToolCall V),
      (execute_tool_calls calls tools).length = calls.length) ∧
    (∀ calls : List (ToolCall V),
      (execute_tool_calls calls tools).map Prod.fst
        = calls.map (fun c => c.tool_name)) ∧
    (∀ calls : List (ToolCall V), ∀ c ∈ calls,
      tools.find? (fun t => t.name == c.tool_name) = none →
        (c.tool_name, (Except.error ("Tool not found") : Except String V))
          ∈ execute_tool_calls calls tools) ∧
    (∀ calls : List (ToolCall V), ∀ c ∈ calls, ∀ tool e,
      tools.find? (fun t => t.name == c.tool_name) = some tool →
      tool.execute c.tool_args = Except.error e →
        (c.tool_name, (Except.error ("Error: " ++ e) : Except String V))
          ∈ execute_tool_calls calls tools) ∧
    toolLoop parse tools render (o2 :: rest) o1 none 0 [] 0
      = some (LoopOut.mk o2 1
          [Msg.assistant o1,
           Msg.toolResp k.tool_name ("Error: Tool not found")]) := by
  refine ⟨?_, ?_, ?_, ?_, ?_⟩
  · intro calls
    simp [execute_tool_calls]
  · intro calls
    simp only [execute_tool_calls, List.map_map]
    refine List.map_congr_left ?_
    intro c _
    exact executeOneCall_fst tools c
  · intro calls c hc hfind
    simp only [execute_tool_calls]
    refine List.mem_map.mpr ⟨c, hc, ?_⟩
    simp [executeOneCall, hfind]
  · intro calls c hc tool e hfind hexec
    simp only [execute_tool_calls]
    refine List.mem_map.mpr ⟨c, hc, ?_⟩
    simp [executeOneCall, hfind, hexec]
  · rw [toolLoop_step_fresh hp1]
    rw [toolLoop_done hp2]
    simp [execute_tool_calls, executeOneCall, hbad, toolResultMsg]

/-- C7 witness: a batch with a single call naming no registered tool, at
concrete inputs; the error is fed back and a follow-up is requested. -/
theorem c7_witness :
    toolLoop
        (fun s => if s = "r1"
          then [ToolCall.mk ("function") ("missing") (0 : Nat)] else [])
        ([] : List (AiTool Nat)) (fun v => toString v) ["r2"] ("r1") none 0 [] 0
      = some (LoopOut.mk ("r2") 1
          [Msg.assistant ("r1"),
           Msg.toolResp ("missing") ("Error: Tool not found")]) :=
  (c7_execute_all ([] : List (AiTool Nat)) (fun v => toString v)
    (fun s => if s = "r1"
      then [ToolCall.mk ("function") ("missing") (0 : Nat)] else [])
    (ToolCall.mk ("function") ("missing") (0 : Nat)) ("r1") ("r2") []
    rfl rfl rfl).2.2.2.2

theorem parseToolCallsGo_eq {V : Type} (jsonParse : String → Option V)
    (captures : List Capture) (acc : List (ToolCall V)) :
    parseToolCallsGo jsonParse captures acc
      = acc ++ captures.filterMap (fun cap =>
          (jsonParse cap.cargs).map (fun v => ToolCall.mk cap.ctype cap.cname v)) := by
  induction captures generalizing acc with
  | nil => simp [parseToolCallsGo]
  | cons cap rest ih =>
    cases h : jsonParse cap.cargs with
    | none => simp [parseToolCallsGo, h, ih]
    | some v => simp [parseToolCallsGo, h, ih]

/-- C8: `parse_tool_calls` is total and keeps exactly the captures whose JSON
argument block parses — a malformed directive produces neither a call nor an
error — so an output with only malformed directives parses to the empty call
list, and on an empty call list the loop returns that output as the final
answer with no follow-up gateway call. -/
theorem c8_malformed_directives_skipped {V : Type} [DecidableEq V]
    (jsonParse : String → Option V) (captures : List Capture) :
    parse_tool_calls jsonParse captures
      = captures.filterMap (fun cap =>
          (jsonParse cap.cargs).map (fun v => ToolCall.mk cap.ctype cap.cname v)) ∧
    ((∀ cap ∈ captures, jsonParse cap.cargs = none) →
      parse_tool_calls jsonParse captures = []) ∧
    (∀ (parse : String → List (ToolCall V)) (tools : List (AiTool V))
        (render : V → String) (followups : List String) (r : String)
        (lastCall : Option (String × V)) (times : Nat) (msgs : List Msg),
      parse r = [] →
        toolLoop parse tools render followups r lastCall times msgs 0
          = some (LoopOut.mk r 0 msgs)) := by
  refine ⟨parseToolCallsGo_eq jsonParse captures [], ?_, ?_⟩
  · intro hall
    unfold parse_tool_calls
    rw [parseToolCallsGo_eq jsonParse captures []]
    simp only [List.nil_append]
    rw [List.filterMap_eq_nil_iff]
    intro cap hc
    rw [hall cap hc]
    rfl
  · intro parse tools render followups r lastCall times msgs h
    exact toolLoop_done h

theorem splitOnFuel_ne_nil (sep : List Char) :
    ∀ (fuel : Nat) (s acc : List Char), splitOnFuel sep fuel s acc ≠ [] := by
  intro fuel
  induction fuel with
  | zero => intro s acc; simp [splitOnFuel]
  | succ n ih =>
    intro s acc
    cases s with
    | nil => simp [splitOnFuel]
    | cons c rest =>
      simp only [splitOnFuel]
      split
      · simp
      · exact ih rest (c :: acc)

theorem getLastD_of_ne_nil {α : Type} (l : List α) (d d' : α) (h : l ≠ []) :
    l.getLastD d = l.getLastD d' := by
  cases l with
  | nil => exact absurd rfl h
  | cons a l2 => simp only [List.getLastD_cons]

theorem splitOnFuel_pos (sep : List Char) (n : Nat) (s acc : List Char)
    (hs : s ≠ []) :
    splitOnFuel sep (n + 1) s acc
      = if sep ≠ [] ∧ sep.isPrefixOf s then
          acc.reverse :: splitOnFuel sep n (s.drop sep.length) []
        else
          splitOnFuel sep n s.tail (s.head hs :: acc) := by
  cases s with
  | nil => exact absurd rfl hs
  | cons c rest => rfl

theorem splitOnFuel_no_occurrence (sep : List Char) (_hne : sep ≠ []) :
    ∀ (fuel : Nat) (s acc : List Char), s.length ≤ fuel → ¬ sep <:+: s →
      splitOnFuel sep fuel s acc = [acc.reverse ++ s] := by
  intro fuel
  induction fuel with
  | zero =>
    intro s acc hlen _
    rw [splitOnFuel]
  | succ n ih =>
    intro s acc hlen hocc
    cases s with
    | nil => simp [splitOnFuel]
    | cons c rest =>
      simp only [splitOnFuel]
      split
      · next hcond =>
        exact absurd ((List.isPrefixOf_iff_prefix.mp hcond.2).isInfix) hocc
      · next hcond =>
        have hocc2 : ¬ sep <:+: rest :=
          fun h2 => hocc (List.infix_cons_iff.mpr (Or.inr h2))
        rw [ih rest (c :: acc) (by simp at hlen; omega) hocc2]
        simp

theorem splitOnFuel_last (sep : List Char) (hne : sep ≠ [])
    (hub : Unbordered sep) :
    ∀ (fuel : Nat) (a b acc : List Char),
      (a ++ (sep ++ b)).length ≤ fuel → ¬ sep <:+: b →
      (splitOnFuel sep fuel (a ++ (sep ++ b)) acc).getLastD [] = b := by
  have hsl : 0 < sep.length := List.length_pos.mpr hne
  intro fuel
  induction fuel with
  | zero =>
    intro a b acc hlen _
    exfalso
    rw [List.length_append, List.length_append] at hlen
    omega
  | succ n ih =>
    intro a b acc hlen hocc
    have hsne : a ++ (sep ++ b) ≠ [] := by
      cases a <;> simp [hne]
    rw [splitOnFuel_pos sep n _ acc hsne]
    cases a with
    | nil =>
      have hpre : sep.isPrefixOf ([] ++ (sep ++ b)) = true :=
        List.isPrefixOf_iff_prefix.mpr (by simp)
      rw [if_pos ⟨hne, hpre⟩]
      have hdrop : (([] : List Char) ++ (sep ++ b)).drop sep.length = b := by
        simp
      rw [hdrop]
      rw [splitOnFuel_no_occurrence sep hne n b []
        (by simp [List.length_append] at hlen; omega) hocc]
      simp
    | cons x a2 =>
      by_cases hp : sep.isPrefixOf ((x :: a2) ++ (sep ++ b)) = true
      · rcases le_or_lt sep.length (a2.length + 1) with hle | hgt
        · rw [if_pos ⟨hne, hp⟩]
          have hdrop : ((x :: a2) ++ (sep ++ b)).drop sep.length
              = ((x :: a2).drop sep.length) ++ (sep ++ b) := by
            rw [List.drop_append_eq_append_drop]
            have : sep.length - (x :: a2).length = 0 := by simp; omega
            rw [this, List.drop_zero]
          rw [hdrop, List.getLastD_cons]
          rw [getLastD_of_ne_nil _ acc.reverse [] (splitOnFuel_ne_nil sep n _ _)]
          refine ih ((x :: a2).drop sep.length) b []
            (by simp [List.length_append] at hlen ⊢; omega) hocc
        · exfalso
          have hpre : sep <+: (x :: a2) ++ (sep ++ b) :=
            List.isPrefixOf_iff_prefix.mp hp
          have htake : sep = ((x :: a2) ++ (sep ++ b)).take sep.length :=
            List.prefix_iff_eq_take.mp hpre
          have hk1 : (x :: a2).take sep.length = x :: a2 :=
            List.take_of_length_le (by simp; omega)
          have hk2 : (sep ++ b).take (sep.length - (x :: a2).length)
              = sep.take (sep.length - (x :: a2).length) := by
            rw [List.take_append_eq_append_take]
            have : sep.length - (x :: a2).length - sep.length = 0 := by omega
            rw [this, List.take_zero, List.append_nil]
          rw [List.take_append_eq_append_take, hk1, hk2] at htake
          have hdrop2 : sep.drop (a2.length + 1)
              = sep.take (sep.length - (x :: a2).length) := by
            conv in sep.drop _ => rw [htake]
            simp
          refine hub (sep.length - (x :: a2).length) (by simp; omega)
            (by simp; omega) ?_
          rw [hdrop2.symm]
          congr 1
          simp
          omega
      · rw [if_neg (fun hC => hp hC.2)]
        simp only [List.cons_append, List.tail_cons, List.head_cons]
        exact ih a2 b (x :: acc) (by simp [List.length_append] at hlen ⊢; omega)
          hocc

/-- C6: the posted reply text equals the substring of the final model output
after the last occurrence of the reasoning delimiter, trimmed of surrounding
whitespace — the whole output trimmed when the delimiter is absent — and on
the output `<think>...</think> actual reply` the posted text is exactly
`actual reply`. -/
theorem c6_think_strip :
    (∀ a b : List Char, ¬ thinkDelim <:+: b →
      stripThink (a ++ (thinkDelim ++ b)) = trimChars b) ∧
    (∀ s : List Char, ¬ thinkDelim <:+: s → stripThink s = trimChars s) ∧
    stripThinkStr ("<think>...</think> actual reply") = ("actual reply") := by
  refine ⟨?_, ?_, ?_⟩
  · intro a b hocc
    unfold stripThink splitOnChars
    rw [splitOnFuel_last thinkDelim (by decide)
      (show Unbordered thinkDelim by unfold Unbordered; decide) _ a b [] le_rfl
      hocc]
  · intro s hocc
    unfold stripThink splitOnChars
    rw [splitOnFuel_no_occurrence thinkDelim (by decide) _ s [] le_rfl hocc]
    simp
  · decide

/-- C6 witness: a concrete output with one delimiter occurrence; the suffix is
kept and trimmed. -/
theorem c6_witness :
    stripThink (("x".toList) ++ (thinkDelim ++ (" hi ".toList)))
      = trimChars (" hi ".toList) :=
  (c6_think_strip).1 ("x".toList) (" hi ".toList) (by decide)

/-- C2 (evaluating the code at the failing input): the memory-writer phase
embeds the serialized exchange once and assembles exactly one memory entry
tagged `stm`, but the list of entries handed to the vector-store put
operation is empty — the source builds `memtries` and never calls
`MemoryStore::put`/`put_batch` on it, so the claimed single write never
happens. -/
theorem c2_memory_never_written :
    c2Trace.embedBatches.length = 1 ∧
    c2Trace.memtries.length = 1 ∧
    (∀ e ∈ c2Trace.memtries, e.tags = ["stm"]) ∧
    c2Trace.putCalls = [] ∧
    ¬ (c2Trace.putCalls.length = 1) := by
  refine ⟨rfl, rfl, ?_, rfl, by decide⟩
  decide

/-- C8 witness: a single well-delimited directive whose JSON block fails to
parse yields the empty call list. -/
theorem c8_witness :
    parse_tool_calls (fun _ => (none : Option Nat))
        [Capture.mk ("function") ("calc") ("not json")] = [] :=
  (c8_malformed_directives_skipped (fun _ => (none : Option Nat))
    [Capture.mk ("function") ("calc") ("not json")]).2.1
    (fun _ _ => rfl)

end Aigis
